import Mathlib

/-!
# Verification of the OSC timecode generator core

Shallow embedding of `OSC_TimeCode_Generator.py`: the pure timecode
conversion helpers (`frames_to_tc_string`, `tc_string_to_frames`), the
framerate table, the offset handling (`parse_and_set_offset`,
`reset_timecode`) and one iteration of the tick loop (`timecode_loop`),
together with theorems settling the specification claims.

Python machine floats are embedded as exact rationals: every claim under
scrutiny depends on the floats only through sign tests and rounding to an
integer, on which the rational reading of the source literals and the
IEEE doubles agree.
-/

/-- The Python `int(round(x))`: round half to even, embedded on `ℚ`.  The
fractional part `q - ⌊q⌋` equals `(q.num - ⌊q⌋ * q.den) / q.den` with a
positive denominator, so its comparison with `1/2` is phrased on the
integers to keep the definition kernel-evaluable. -/
def pyRound (q : ℚ) : ℤ :=
  let f := ⌊q⌋
  let num2 := 2 * (q.num - f * (q.den : ℤ))
  if num2 < (q.den : ℤ) then f
  else if (q.den : ℤ) < num2 then f + 1
  else if f % 2 = 0 then f else f + 1

/-- The `FRAMERATES` dictionary of the source, label to precise value.
The decimal literals of the source are embedded as exact rationals:
`29.97002997002997` and `23.976023976023976`. -/
def FRAMERATES : String → Option ℚ
  | "30" => some 30
  | "29.97" => some (mkRat 2997002997002997 100000000000000)
  | "25" => some 25
  | "24" => some 24
  | "23.976" => some (mkRat 23976023976023976 1000000000000000)
  | _ => none

/-- The closed set of supported framerates (the keys of `FRAMERATES`). -/
inductive Framerate
  | fr30
  | fr29_97
  | fr25
  | fr24
  | fr23_976
deriving DecidableEq

/-- The label of a supported framerate, a key of `FRAMERATES`. -/
def Framerate.label : Framerate → String
  | .fr30 => "30"
  | .fr29_97 => "29.97"
  | .fr25 => "25"
  | .fr24 => "24"
  | .fr23_976 => "23.976"

/-- The precise value of a supported framerate, per `FRAMERATES`. -/
def Framerate.precise : Framerate → ℚ
  | .fr30 => 30
  | .fr29_97 => mkRat 2997002997002997 100000000000000
  | .fr25 => 25
  | .fr24 => 24
  | .fr23_976 => mkRat 23976023976023976 1000000000000000

/-- The nominal integer display rate of a framerate: `int(round(fps))`. -/
def Framerate.displayRate (fr : Framerate) : ℤ :=
  pyRound fr.precise

/-- The Python 02d format: decimal string of `x`, zero-padded to width 2
(the only reprs shorter than two characters are those of `0..9`). -/
def pad2 (n : ℤ) : String :=
  let s := toString n
  if s.length < 2 then "0" ++ s else s

/-- `frames_to_tc_string(total_frames, fps)` of the source: nominal
display rate `int(round(fps))`, guard on a non-positive rate, clamp
`total_frames` to `≥ 0`, then floor div/mod decomposition into
`HH:MM:SS:FF` (Python `//` and `%` are floor division, `Int.fdiv` and
`Int.fmod` here). -/
def frames_to_tc_string (total_frames : ℤ) (fps : ℚ) : String :=
  let display_fps := pyRound fps
  if display_fps ≤ 0 then "00:00:00:00"
  else
    let tf := max 0 total_frames
    let frame_number := Int.fmod tf display_fps
    let total_seconds := Int.fdiv tf display_fps
    let seconds := Int.fmod total_seconds 60
    let total_minutes := Int.fdiv total_seconds 60
    let minutes := Int.fmod total_minutes 60
    let hours := Int.fdiv total_minutes 60
    pad2 hours ++ ":" ++ pad2 minutes ++ ":" ++ pad2 seconds ++ ":" ++ pad2 frame_number

/-- The value of an ASCII digit character. -/
def digitVal (c : Char) : ℕ := c.toNat - 48

/-- One field of the timecode regex, `(\d{1,2})` matched greedily: up to
two leading digits are taken, the remainder is returned unconsumed.  The
digit class (like the whitespace of `pyStrip`) is embedded as ASCII; the
timecode strings of the specification lie in that fragment. -/
def readField : List Char → Option (ℕ × List Char)
  | [] => none
  | [c] => if c.isDigit then some (digitVal c, []) else none
  | c1 :: c2 :: rest =>
    if c1.isDigit then
      if c2.isDigit then some (digitVal c1 * 10 + digitVal c2, rest)
      else some (digitVal c1, c2 :: rest)
    else none

/-- A literal `:` separator of the regex. -/
def expectColon : List Char → Option (List Char)
  | ':' :: rest => some rest
  | _ => none

/-- The last separator class `[:;.]` of the regex. -/
def expectLastSep : List Char → Option (List Char)
  | c :: rest => if c = ':' ∨ c = ';' ∨ c = '.' then some rest else none
  | [] => none

/-- `re.match(r"(\d{1,2}):(\d{1,2}):(\d{1,2})[:;.](\d{1,2})", text)`:
anchored at the start only, so input remaining after the fourth field is
ignored.  For this pattern greedy matching needs no backtracking: a
two-digit take and a one-digit take of a field are never both followed by
the required separator, since no digit is a separator. -/
def matchTimecode (l : List Char) : Option (ℕ × ℕ × ℕ × ℕ) := do
  let (h, l1) ← readField l
  let l2 ← expectColon l1
  let (m, l3) ← readField l2
  let l4 ← expectColon l3
  let (s, l5) ← readField l4
  let l6 ← expectLastSep l5
  let (f, _) ← readField l6
  pure (h, m, s, f)

/-- The ASCII whitespace recognised by the Python `str.strip()`. -/
def isPySpace (c : Char) : Bool :=
  c = ' ' ∨ c = '\t' ∨ c = '\n' ∨ c = '\r' ∨ c.toNat = 11 ∨ c.toNat = 12

/-- The Python `str.strip()`: drop leading and trailing whitespace. -/
def pyStrip (s : String) : String :=
  ⟨((s.data.dropWhile isPySpace).reverse.dropWhile isPySpace).reverse⟩

/-- `tc_string_to_frames(tc_string, fps)` of the source: guard on a
non-positive display rate, strip and regex-match the input, validate the
fields against the display rate and the 60-second/minute limits
(the negativity checks of the source can never fire, the regex fields
being unsigned), then recombine. -/
def tc_string_to_frames (tc_string : String) (fps : ℚ) : Option ℤ :=
  let display_fps := pyRound fps
  if display_fps ≤ 0 then none
  else
    match matchTimecode (pyStrip tc_string).data with
    | none => none
    | some (h, m, s, f) =>
      if display_fps ≤ (f : ℤ) ∨ 60 ≤ (m : ℤ) ∨ 60 ≤ (s : ℤ) ∨
          (h : ℤ) < 0 ∨ (m : ℤ) < 0 ∨ (s : ℤ) < 0 ∨ (f : ℤ) < 0 then none
      else
        let total_seconds : ℤ := h * 3600 + m * 60 + s
        some (total_seconds * display_fps + f)

/-- The loop-owned mutable state of `timecode_loop`: the frame counter
(`self.current_frame`, an integer: it starts from the parsed offset and is
only ever incremented by `1`) and the drift-correction anchor
(`last_time`).  Wall-clock instants and durations are embedded as exact
rationals; the claims about the loop depend on them only through the sign
test of the pause guard. -/
structure TickState where
  current_frame : ℤ
  last_time : ℚ
deriving DecidableEq

/-- One iteration of the `while self.is_running` body of `timecode_loop`,
given the snapshots `speed_percent` (`self.speed_var.get()`), `fps`
(`self.fps`) and the current wall-clock reading `now`
(`time.perf_counter()`).  Returns the successor state and the emitted
timecode string, if any (the source pushes the same string to the display
and to the OSC sink; emission is best-effort and does not alter state).
In the paused branch the source sleeps `0.05`, resets `last_time` to the
clock and emits nothing; otherwise it formats `current_frame` with the
base fps, emits, increments the counter by one, and advances `last_time`
by the theoretical `frame_duration` (the sleep itself has no effect on
the embedded state). -/
def tick (st : TickState) (speed_percent fps now : ℚ) : TickState × Option String :=
  let current_speed_multiplier := speed_percent / 100
  if current_speed_multiplier ≤ 0 ∨ fps ≤ 0 then
    ({ st with last_time := now }, none)
  else
    let effective_fps := fps * current_speed_multiplier
    let frame_duration := 1 / effective_fps
    let tc_string := frames_to_tc_string st.current_frame fps
    ({ current_frame := st.current_frame + 1,
       last_time := st.last_time + frame_duration }, some tc_string)

/-- Several iterations of the tick loop, fed one `(speed, fps, now)`
snapshot per iteration; collects the emitted strings in order. -/
def runTicks (st : TickState) : List (ℚ × ℚ × ℚ) → TickState × List String
  | [] => (st, [])
  | (speed, fps, now) :: rest =>
    let step := tick st speed fps now
    let tail := runTicks step.1 rest
    (tail.1, (match step.2 with | none => [] | some tc => [tc]) ++ tail.2)

/-- The application state touched by offset handling and reset: the
running flag, the reset baseline `self.start_frame`, the live counter
`self.current_frame`, the offset entry text `self.offset_var` and the
precise framerate `self.fps`. -/
structure AppState where
  is_running : Bool
  start_frame : ℤ
  current_frame : ℤ
  offset_var : String
  fps : ℚ

/-- `parse_and_set_offset` of the source: parse the offset entry with
`tc_string_to_frames`; on failure show an error dialog (`errorShown`),
fall back to `start_frame = 0` and write the corrected text
`"00:00:00:00"` back into the entry; on success store the parsed count.
No exception escapes. -/
def parse_and_set_offset (st : AppState) : AppState × Bool :=
  match tc_string_to_frames st.offset_var st.fps with
  | none => ({ st with start_frame := 0, offset_var := "00:00:00:00" }, true)
  | some calculated_frames => ({ st with start_frame := calculated_frames }, false)

/-- `reset_timecode` of the source: stop playback if running, re-parse
the offset entry, set `current_frame := start_frame`, and emit one
formatted tick (display update and, when an OSC client exists, one
message).  Returns the new state, whether the offset error dialog was
shown, and the emitted string. -/
def reset_timecode (st : AppState) : AppState × Bool × String :=
  let stopped := { st with is_running := false }
  let parsed := parse_and_set_offset stopped
  let st2 := { parsed.1 with current_frame := parsed.1.start_frame }
  (st2, parsed.2, frames_to_tc_string st2.current_frame st2.fps)

/-! ## Helper lemmas about digits and two-digit fields -/

/-- The two ASCII characters of the zero-padded decimal rendering of a
value below 100. -/
def twoDigits (a : ℕ) : List Char :=
  [Char.ofNat (48 + a / 10), Char.ofNat (48 + a % 10)]

lemma pad2_data : ∀ a : ℕ, a < 100 → (pad2 (a : ℤ)).data = twoDigits a := by decide

lemma isDigit_digit : ∀ x : ℕ, x < 10 → (Char.ofNat (48 + x)).isDigit = true := by decide

lemma digitVal_digit : ∀ x : ℕ, x < 10 → digitVal (Char.ofNat (48 + x)) = x := by decide

lemma isPySpace_digit : ∀ x : ℕ, x < 10 → isPySpace (Char.ofNat (48 + x)) = false := by
  decide

lemma natCast_fmod (n d : ℕ) : Int.fmod (n : ℤ) (d : ℤ) = ((n % d : ℕ) : ℤ) := by
  rw [Int.fmod_eq_emod _ (Int.natCast_nonneg d)]
  push_cast
  ring

lemma natCast_fdiv (n d : ℕ) : Int.fdiv (n : ℤ) (d : ℤ) = ((n / d : ℕ) : ℤ) := by
  rw [Int.fdiv_eq_ediv _ (Int.natCast_nonneg d)]
  push_cast
  ring

lemma natCast_fmod60 (n : ℕ) : Int.fmod (n : ℤ) 60 = ((n % 60 : ℕ) : ℤ) := by
  simpa using natCast_fmod n 60

lemma natCast_fdiv60 (n : ℕ) : Int.fdiv (n : ℤ) 60 = ((n / 60 : ℕ) : ℤ) := by
  simpa using natCast_fdiv n 60

/-- On a non-negative frame count and a positive display rate, the
formatter is the zero-padded rendering of the `HH:MM:SS:FF` floor
div/mod decomposition. -/
lemma frames_to_tc_string_fields (fps : ℚ) (dn : ℕ) (hd : pyRound fps = (dn : ℤ))
    (h1 : 1 ≤ dn) (n : ℕ) :
    frames_to_tc_string (n : ℤ) fps =
      pad2 ((n / dn / 60 / 60 : ℕ) : ℤ) ++ ":" ++ pad2 ((n / dn / 60 % 60 : ℕ) : ℤ) ++ ":"
        ++ pad2 ((n / dn % 60 : ℕ) : ℤ) ++ ":" ++ pad2 ((n % dn : ℕ) : ℤ) := by
  have hpos : (0 : ℤ) < (dn : ℤ) := by exact_mod_cast h1
  simp only [frames_to_tc_string, hd, if_neg (not_le.mpr hpos),
    max_eq_right (Int.natCast_nonneg n), natCast_fmod, natCast_fdiv,
    natCast_fmod60, natCast_fdiv60]

/-- A field of up to two digits followed by anything reads back its
value, leaving the remainder untouched. -/
lemma readField_twoDigits (a : ℕ) (ha : a < 100) (rest : List Char) :
    readField (twoDigits a ++ rest) = some (a, rest) := by
  have h1 : a / 10 < 10 := by omega
  have h2 : a % 10 < 10 := by omega
  simp [twoDigits, readField, isDigit_digit _ h1, isDigit_digit _ h2,
    digitVal_digit _ h1, digitVal_digit _ h2]
  omega

/-- The regex matcher on four zero-padded two-digit fields, with any
trailing content after the fourth field. -/
lemma matchTimecode_fields (h m s f : ℕ) (hh : h < 100) (hm : m < 100)
    (hs : s < 100) (hf : f < 100) (extra : List Char) :
    matchTimecode (twoDigits h ++ ':' ::
      (twoDigits m ++ ':' :: (twoDigits s ++ ':' :: (twoDigits f ++ extra)))) =
      some (h, m, s, f) := by
  simp [matchTimecode, readField_twoDigits _ hh, readField_twoDigits _ hm,
    readField_twoDigits _ hs, readField_twoDigits _ hf, expectColon, expectLastSep]

lemma dropWhile_isPySpace_eq_self {l : List Char}
    (hl : ∀ c ∈ l, isPySpace c = false) : l.dropWhile isPySpace = l := by
  cases l with
  | nil => rfl
  | cons a t =>
    rw [List.dropWhile_cons, hl a (by simp)]
    simp

/-- Stripping is the identity on strings without leading or trailing
whitespace. -/
lemma pyStrip_eq_self {l : List Char} (hl : ∀ c ∈ l, isPySpace c = false) :
    pyStrip ⟨l⟩ = ⟨l⟩ := by
  unfold pyStrip
  rw [dropWhile_isPySpace_eq_self hl,
    dropWhile_isPySpace_eq_self (by intro c hc; exact hl c (List.mem_reverse.mp hc)),
    List.reverse_reverse]

lemma no_space_twoDigits (a : ℕ) (ha : a < 100) :
    ∀ c ∈ twoDigits a, isPySpace c = false := by
  have h1 : a / 10 < 10 := by omega
  have h2 : a % 10 < 10 := by omega
  intro c hc
  simp only [twoDigits, List.mem_cons, List.mem_singleton, List.not_mem_nil] at hc
  rcases hc with rfl | rfl | hfalse
  · exact isPySpace_digit _ h1
  · exact isPySpace_digit _ h2
  · cases hfalse

lemma colon_data : (":" : String).data = [':'] := rfl

/-- The character data of a formatted `HH:MM:SS:FF` string whose four
fields are all below 100. -/
lemma formatted_data (h m s f : ℕ) (hh : h < 100) (hm : m < 100) (hs : s < 100)
    (hf : f < 100) :
    (pad2 (h : ℤ) ++ ":" ++ pad2 (m : ℤ) ++ ":" ++ pad2 (s : ℤ) ++ ":" ++ pad2 (f : ℤ)).data =
      twoDigits h ++ ':' :: (twoDigits m ++ ':' :: (twoDigits s ++ ':' :: twoDigits f)) := by
  simp [String.data_append, colon_data, pad2_data _ hh, pad2_data _ hm,
    pad2_data _ hs, pad2_data _ hf]

lemma no_space_formatted {h m s f : ℕ} (hh : h < 100) (hm : m < 100) (hs : s < 100)
    (hf : f < 100) :
    ∀ c ∈ twoDigits h ++ ':' :: (twoDigits m ++ ':' :: (twoDigits s ++ ':' :: twoDigits f)),
      isPySpace c = false := by
  intro c hc
  simp only [List.mem_append, List.mem_cons] at hc
  rcases hc with hc | hc | hc | hc | hc | hc | hc
  · exact no_space_twoDigits h hh c hc
  · subst hc; decide
  · exact no_space_twoDigits m hm c hc
  · subst hc; decide
  · exact no_space_twoDigits s hs c hc
  · subst hc; decide
  · exact no_space_twoDigits f hf c hc

/-- The recombination identity behind the round-trip law. -/
lemma decompose_frames (n dn : ℕ) :
    ((n / dn / 60 / 60) * 3600 + (n / dn / 60 % 60) * 60 + n / dn % 60) * dn + n % dn = n := by
  have inner : (n / dn / 60 / 60) * 3600 + (n / dn / 60 % 60) * 60 + n / dn % 60 = n / dn := by
    omega
  rw [inner, mul_comm]
  exact Nat.div_add_mod n dn

/-- Parsing inverts formatting below the 100-hour rollover, for any
display rate in `1..99`. -/
lemma parse_format_roundtrip (fps : ℚ) (dn : ℕ) (hd : pyRound fps = (dn : ℤ))
    (h1 : 1 ≤ dn) (h99 : dn ≤ 99) (n : ℕ) (hn : n < 86400 * dn) :
    tc_string_to_frames (frames_to_tc_string (n : ℤ) fps) fps = some (n : ℤ) := by
  have hq : n / dn < 86400 := (Nat.div_lt_iff_lt_mul (by omega)).mpr hn
  have hh : n / dn / 60 / 60 < 100 := by omega
  have hm : n / dn / 60 % 60 < 100 := by omega
  have hs : n / dn % 60 < 100 := by omega
  have hf : n % dn < 100 := lt_of_lt_of_le (Nat.mod_lt n (by omega)) (by omega)
  have hfd : n % dn < dn := Nat.mod_lt n (by omega)
  have hpos : (0 : ℤ) < (dn : ℤ) := by exact_mod_cast h1
  rw [frames_to_tc_string_fields fps dn hd h1 n]
  have hdata := formatted_data _ _ _ _ hh hm hs hf
  have hstrip : (pyStrip (pad2 ((n / dn / 60 / 60 : ℕ) : ℤ) ++ ":" ++
      pad2 ((n / dn / 60 % 60 : ℕ) : ℤ) ++ ":" ++ pad2 ((n / dn % 60 : ℕ) : ℤ) ++ ":" ++
      pad2 ((n % dn : ℕ) : ℤ))).data =
      twoDigits (n / dn / 60 / 60) ++ ':' :: (twoDigits (n / dn / 60 % 60) ++ ':' ::
        (twoDigits (n / dn % 60) ++ ':' :: twoDigits (n % dn))) := by
    unfold pyStrip
    rw [hdata, dropWhile_isPySpace_eq_self (no_space_formatted hh hm hs hf),
      dropWhile_isPySpace_eq_self
        (by intro c hc; exact no_space_formatted hh hm hs hf c (List.mem_reverse.mp hc)),
      List.reverse_reverse]
  have hmatch : matchTimecode (twoDigits (n / dn / 60 / 60) ++ ':' ::
      (twoDigits (n / dn / 60 % 60) ++ ':' :: (twoDigits (n / dn % 60) ++ ':' ::
        twoDigits (n % dn)))) =
      some (n / dn / 60 / 60, n / dn / 60 % 60, n / dn % 60, n % dn) := by
    have := matchTimecode_fields _ _ _ _ hh hm hs hf []
    simpa using this
  simp only [tc_string_to_frames, hd, if_neg (not_le.mpr hpos), hstrip, hmatch]
  rw [if_neg (by
    simp only [not_or, not_le, not_lt]
    refine ⟨by exact_mod_cast hfd, by exact_mod_cast (by omega : n / dn / 60 % 60 < 60),
      by exact_mod_cast (by omega : n / dn % 60 < 60), Int.natCast_nonneg _,
      Int.natCast_nonneg _, Int.natCast_nonneg _, Int.natCast_nonneg _⟩)]
  congr 1
  exact_mod_cast decompose_frames n dn

lemma pad2_length (a : ℕ) (ha : a < 100) : (pad2 (a : ℤ)).length = 2 := by
  have hdata : (pad2 (a : ℤ)).length = (pad2 (a : ℤ)).data.length := rfl
  rw [hdata, pad2_data a ha]
  rfl

/-- The formatter depends on the precise rate only through its rounding. -/
lemma frames_to_tc_string_congr {fps fps' : ℚ} (hEq : pyRound fps = pyRound fps')
    (tf : ℤ) : frames_to_tc_string tf fps = frames_to_tc_string tf fps' := by
  simp only [frames_to_tc_string, hEq]

/-- The parser depends on the precise rate only through its rounding. -/
lemma tc_string_to_frames_congr {fps fps' : ℚ} (hEq : pyRound fps = pyRound fps')
    (text : String) : tc_string_to_frames text fps = tc_string_to_frames text fps' := by
  simp only [tc_string_to_frames, hEq]

/-- The paused branch of the tick loop: state untouched except for the
timer reset, nothing emitted. -/
lemma tick_paused (st : TickState) (speed fps now : ℚ) (hguard : speed ≤ 0 ∨ fps ≤ 0) :
    tick st speed fps now = ({ st with last_time := now }, none) := by
  have hcond : speed / 100 ≤ 0 ∨ fps ≤ 0 := by
    rcases hguard with h | h
    · exact Or.inl (div_nonpos_iff.mpr (Or.inr ⟨h, by norm_num⟩))
    · exact Or.inr h
  simp only [tick, if_pos hcond]

/-- The running branch of the tick loop, in full. -/
lemma tick_running (st : TickState) (speed fps now : ℚ) (hspeed : 0 < speed)
    (hfps : 0 < fps) :
    tick st speed fps now =
      ({ current_frame := st.current_frame + 1,
         last_time := st.last_time + 1 / (fps * (speed / 100)) },
       some (frames_to_tc_string st.current_frame fps)) := by
  have hmult : 0 < speed / 100 := by positivity
  have hcond : ¬(speed / 100 ≤ 0 ∨ fps ≤ 0) := by
    simp only [not_or, not_le]
    exact ⟨hmult, hfps⟩
  simp only [tick, if_neg hcond]

/-- Iterating the loop over paused snapshots never changes the frame
counter and emits nothing. -/
lemma runTicks_paused : ∀ (inputs : List (ℚ × ℚ × ℚ)) (st : TickState),
    (∀ x ∈ inputs, x.1 ≤ 0 ∨ x.2.1 ≤ 0) →
    (runTicks st inputs).1.current_frame = st.current_frame ∧ (runTicks st inputs).2 = [] := by
  intro inputs
  induction inputs with
  | nil => intro st _; simp [runTicks]
  | cons x rest ih =>
    intro st hall
    obtain ⟨speed, fps, now⟩ := x
    have hx : speed ≤ 0 ∨ fps ≤ 0 := by simpa using hall _ (List.mem_cons_self _ _)
    have hrest := ih { st with last_time := now } (fun y hy => hall y (List.mem_cons_of_mem _ hy))
    simp only [runTicks, tick_paused st speed fps now hx]
    simpa using hrest

/-- Field shape and bounds of the formatter output, for any display rate
in `1..99`. -/
lemma formatter_bounds_general (fps : ℚ) (dn : ℕ) (hd : pyRound fps = (dn : ℤ))
    (h1 : 1 ≤ dn) (h99 : dn ≤ 99) (n : ℕ) :
    frames_to_tc_string (n : ℤ) fps =
      pad2 ((n / dn / 60 / 60 : ℕ) : ℤ) ++ ":" ++ pad2 ((n / dn / 60 % 60 : ℕ) : ℤ) ++ ":"
        ++ pad2 ((n / dn % 60 : ℕ) : ℤ) ++ ":" ++ pad2 ((n % dn : ℕ) : ℤ) ∧
    n / dn / 60 % 60 < 60 ∧ n / dn % 60 < 60 ∧ n % dn < dn ∧
    (pad2 ((n / dn / 60 % 60 : ℕ) : ℤ)).length = 2 ∧
    (pad2 ((n / dn % 60 : ℕ) : ℤ)).length = 2 ∧
    (pad2 ((n % dn : ℕ) : ℤ)).length = 2 := by
  have hfd : n % dn < dn := Nat.mod_lt n (by omega)
  exact ⟨frames_to_tc_string_fields fps dn hd h1 n, by omega, by omega, hfd,
    pad2_length _ (by omega), pad2_length _ (by omega), pad2_length _ (by omega)⟩

/-! ## Claim theorems -/

/-- C1: Round-trip law: for every supported Framerate `fps` with display
rate `d = round(fps.precise)` and every frame count `n < 24*3600*d`
(hour field below 100), parsing the formatted timecode returns `n`. -/
theorem roundtrip_law (fr : Framerate) (n : ℕ)
    (hn : n < 24 * 3600 * fr.displayRate.toNat) :
    tc_string_to_frames (frames_to_tc_string (n : ℤ) fr.precise) fr.precise =
      some (n : ℤ) := by
  cases fr with
  | fr30 =>
    refine parse_format_roundtrip _ 30 (by decide) (by decide) (by decide) n ?_
    have e : (Framerate.displayRate Framerate.fr30).toNat = 30 := by decide
    omega
  | fr29_97 =>
    refine parse_format_roundtrip _ 30 (by decide) (by decide) (by decide) n ?_
    have e : (Framerate.displayRate Framerate.fr29_97).toNat = 30 := by decide
    omega
  | fr25 =>
    refine parse_format_roundtrip _ 25 (by decide) (by decide) (by decide) n ?_
    have e : (Framerate.displayRate Framerate.fr25).toNat = 25 := by decide
    omega
  | fr24 =>
    refine parse_format_roundtrip _ 24 (by decide) (by decide) (by decide) n ?_
    have e : (Framerate.displayRate Framerate.fr24).toNat = 24 := by decide
    omega
  | fr23_976 =>
    refine parse_format_roundtrip _ 24 (by decide) (by decide) (by decide) n ?_
    have e : (Framerate.displayRate Framerate.fr23_976).toNat = 24 := by decide
    omega

/-- Witness for C1 at `n = 12345`, 30 fps. -/
theorem roundtrip_law_witness :
    12345 < 24 * 3600 * (Framerate.displayRate Framerate.fr30).toNat ∧
    tc_string_to_frames (frames_to_tc_string ((12345 : ℕ) : ℤ) Framerate.fr30.precise)
      Framerate.fr30.precise = some ((12345 : ℕ) : ℤ) :=
  ⟨by decide, roundtrip_law Framerate.fr30 12345 (by decide)⟩

/-- C2: for every non-negative frame count and every rate whose precise
value rounds to `d ≥ 1`, the formatter output is the zero-padded
colon-joined rendering of `frame = frames mod d`,
`totalSeconds = frames div d`, `seconds = totalSeconds mod 60`,
`totalMinutes = totalSeconds div 60`, `minutes = totalMinutes mod 60`,
`hours = totalMinutes div 60`, hours unwrapped; with the three concrete
examples at 30 fps. -/
theorem format_decomposition :
    (∀ (fps : ℚ) (d : ℕ), pyRound fps = (d : ℤ) → 1 ≤ d → ∀ frames : ℕ,
      frames_to_tc_string (frames : ℤ) fps =
        pad2 ((frames / d / 60 / 60 : ℕ) : ℤ) ++ ":" ++
        pad2 ((frames / d / 60 % 60 : ℕ) : ℤ) ++ ":" ++
        pad2 ((frames / d % 60 : ℕ) : ℤ) ++ ":" ++
        pad2 ((frames % d : ℕ) : ℤ)) ∧
    frames_to_tc_string 0 30 = "00:00:00:00" ∧
    frames_to_tc_string 90 30 = "00:00:03:00" ∧
    frames_to_tc_string 29 30 = "00:00:00:29" :=
  ⟨fun fps d hd h1 frames => frames_to_tc_string_fields fps d hd h1 frames,
    by decide, by decide, by decide⟩

/-- Witness for C2 at 90 frames, 30 fps. -/
theorem format_decomposition_witness :
    pyRound 30 = ((30 : ℕ) : ℤ) ∧
    frames_to_tc_string ((90 : ℕ) : ℤ) 30 =
      pad2 (((90 : ℕ) / 30 / 60 / 60 : ℕ) : ℤ) ++ ":" ++
      pad2 (((90 : ℕ) / 30 / 60 % 60 : ℕ) : ℤ) ++ ":" ++
      pad2 (((90 : ℕ) / 30 % 60 : ℕ) : ℤ) ++ ":" ++
      pad2 (((90 : ℕ) % 30 : ℕ) : ℤ) :=
  ⟨by decide, format_decomposition.1 30 30 (by decide) (by decide) 90⟩

/-- C3: on any input whose stripped text matches the timecode pattern
with fields `h`, `m`, `s`, `f`, and any rate rounding to `d ≥ 1`, the
parser rejects exactly when `f ≥ d` or `m ≥ 60` or `s ≥ 60`, and
otherwise returns `h*3600*d + m*60*d + s*d + f`; with the three concrete
examples at 30 fps. -/
theorem parse_characterization :
    (∀ (text : String) (fps : ℚ) (d h m s f : ℕ),
      pyRound fps = (d : ℤ) → 1 ≤ d →
      matchTimecode (pyStrip text).data = some (h, m, s, f) →
      tc_string_to_frames text fps =
        if d ≤ f ∨ 60 ≤ m ∨ 60 ≤ s then none
        else some ((h : ℤ) * 3600 * d + (m : ℤ) * 60 * d + (s : ℤ) * d + f)) ∧
    tc_string_to_frames "00:00:01:15" 30 = some 45 ∧
    tc_string_to_frames "00:00:00:30" 30 = none ∧
    tc_string_to_frames "bad" 30 = none := by
  refine ⟨?_, by decide, by decide, by decide⟩
  intro text fps d h m s f hd h1 hmatch
  have hpos : (0 : ℤ) < (d : ℤ) := by exact_mod_cast h1
  simp only [tc_string_to_frames, hd, if_neg (not_le.mpr hpos), hmatch]
  by_cases hcond : d ≤ f ∨ 60 ≤ m ∨ 60 ≤ s
  · rw [if_pos ?_, if_pos hcond]
    rcases hcond with hbad | hbad | hbad
    · exact Or.inl (by exact_mod_cast hbad)
    · exact Or.inr (Or.inl (by exact_mod_cast hbad))
    · exact Or.inr (Or.inr (Or.inl (by exact_mod_cast hbad)))
  · rw [if_neg ?_, if_neg hcond]
    · congr 1
      ring
    · simp only [not_or, not_le] at hcond
      simp only [not_or, not_le, not_lt]
      exact ⟨by exact_mod_cast hcond.1, by exact_mod_cast hcond.2.1,
        by exact_mod_cast hcond.2.2, Int.natCast_nonneg _, Int.natCast_nonneg _,
        Int.natCast_nonneg _, Int.natCast_nonneg _⟩

/-- Witness for C3 at `"00:00:01:15"`, 30 fps. -/
theorem parse_characterization_witness :
    pyRound 30 = ((30 : ℕ) : ℤ) ∧
    matchTimecode (pyStrip "00:00:01:15").data = some (0, 0, 1, 15) ∧
    tc_string_to_frames "00:00:01:15" 30 =
      (if 30 ≤ 15 ∨ 60 ≤ 0 ∨ 60 ≤ 1 then none
       else some (((0 : ℕ) : ℤ) * 3600 * (30 : ℕ) + ((0 : ℕ) : ℤ) * 60 * (30 : ℕ) +
         ((1 : ℕ) : ℤ) * (30 : ℕ) + ((15 : ℕ) : ℤ))) :=
  ⟨by decide, by decide,
    parse_characterization.1 "00:00:01:15" 30 30 0 0 1 15 (by decide) (by decide) (by decide)⟩

/-- C4 counterexample: a string carrying content after the four matched
fields — which therefore does not consist exactly of the pattern — is
nonetheless accepted: `re.match` anchors at the start only. -/
theorem trailing_junk_accepted :
    tc_string_to_frames "00:00:01:15!!" 30 ≠ none ∧
    tc_string_to_frames "00:00:01:15!!" 30 = some 45 :=
  ⟨by decide, by decide⟩

/-- C4 as amended: the parser rejects unless the stripped text BEGINS
with four fields of one to two digits, the first three separators `:`
and the last one of `:`, `;`, `.`; content before or inside the pattern
causes rejection, while trailing content after the matched fourth field
is ignored rather than rejected. -/
theorem reject_unless_pattern_match (text : String) (fps : ℚ)
    (hnomatch : matchTimecode (pyStrip text).data = none) :
    tc_string_to_frames text fps = none := by
  by_cases hd : pyRound fps ≤ 0
  · simp [tc_string_to_frames, hd]
  · simp [tc_string_to_frames, hd, hnomatch]

/-- Witness for the amended C4 at `"bad"`, 30 fps. -/
theorem reject_unless_pattern_match_witness :
    matchTimecode (pyStrip "bad").data = none ∧ tc_string_to_frames "bad" 30 = none :=
  ⟨by decide, reject_unless_pattern_match "bad" 30 (by decide)⟩

/-- C5: at the 29.97 label the display rate used by both conversion
functions is the nominal integer 30 — the round of the precise value,
not 29.97: both functions behave exactly as at precise rate 30 — and
likewise the display rate of every supported framerate is the round of its
precise value. -/
theorem display_rate_nominal :
    pyRound Framerate.fr29_97.precise = 30 ∧
    (∀ tf : ℤ, frames_to_tc_string tf Framerate.fr29_97.precise =
      frames_to_tc_string tf 30) ∧
    (∀ text : String, tc_string_to_frames text Framerate.fr29_97.precise =
      tc_string_to_frames text 30) ∧
    Framerate.fr30.displayRate = 30 ∧ Framerate.fr29_97.displayRate = 30 ∧
    Framerate.fr25.displayRate = 25 ∧ Framerate.fr24.displayRate = 24 ∧
    Framerate.fr23_976.displayRate = 24 :=
  ⟨by decide, fun tf => frames_to_tc_string_congr (by decide) tf,
    fun text => tc_string_to_frames_congr (by decide) text,
    by decide, by decide, by decide, by decide, by decide⟩

/-- C6: the formatter is total and never divides by a non-positive
display rate — a rate rounding to `≤ 0` yields the constant
`"00:00:00:00"` — and a negative frame count is clamped to 0 before the
decomposition. -/
theorem format_total_and_clamped (fps : ℚ) (frames : ℤ) :
    (pyRound fps ≤ 0 → frames_to_tc_string frames fps = "00:00:00:00") ∧
    (frames < 0 → frames_to_tc_string frames fps = frames_to_tc_string 0 fps) := by
  constructor
  · intro hd
    simp [frames_to_tc_string, hd]
  · intro hneg
    simp only [frames_to_tc_string, max_eq_left hneg.le, max_self]

/-- Witness for C6: rate 0 formats to the constant; `-3` formats like 0. -/
theorem format_total_and_clamped_witness :
    pyRound (0 : ℚ) ≤ 0 ∧ frames_to_tc_string (-3) (0 : ℚ) = "00:00:00:00" ∧
    (-3 : ℤ) < 0 ∧ frames_to_tc_string (-3) 30 = frames_to_tc_string 0 30 :=
  ⟨by decide, (format_total_and_clamped 0 (-3)).1 (by decide),
    by decide, (format_total_and_clamped 30 (-3)).2 (by decide)⟩

/-- C7: a tick iteration whose snapshot has `speedFactor ≤ 0` or
`fps.precise ≤ 0` advances nothing and emits nothing, only resetting
`last_time` to the current clock; hence over any run of such snapshots
the frame counter never changes and no tick is emitted. -/
theorem paused_tick_no_advance :
    (∀ (st : TickState) (speed fps now : ℚ), speed ≤ 0 ∨ fps ≤ 0 →
      tick st speed fps now = ({ st with last_time := now }, none)) ∧
    (∀ (st : TickState) (inputs : List (ℚ × ℚ × ℚ)),
      (∀ x ∈ inputs, x.1 ≤ 0 ∨ x.2.1 ≤ 0) →
      (runTicks st inputs).1.current_frame = st.current_frame ∧
        (runTicks st inputs).2 = []) :=
  ⟨tick_paused, fun st inputs hall => runTicks_paused inputs st hall⟩

/-- Witness for C7: one zero-speed tick and a two-snapshot paused run. -/
theorem paused_tick_no_advance_witness :
    ((0 : ℚ) ≤ 0 ∨ (30 : ℚ) ≤ 0) ∧
    tick ⟨7, 2⟩ 0 30 5 = ({ current_frame := 7, last_time := 5 }, none) ∧
    (runTicks ⟨7, 2⟩ [(0, 30, 1), (0, 25, 2)]).1.current_frame = 7 ∧
    (runTicks ⟨7, 2⟩ [(0, 30, 1), (0, 25, 2)]).2 = [] := by
  have hall : ∀ x ∈ [((0 : ℚ), (30 : ℚ), (1 : ℚ)), ((0 : ℚ), (25 : ℚ), (2 : ℚ))],
      x.1 ≤ 0 ∨ x.2.1 ≤ 0 := by
    intro x hx
    simp only [List.mem_cons, List.not_mem_nil, or_false] at hx
    rcases hx with rfl | rfl
    · exact Or.inl le_rfl
    · exact Or.inl le_rfl
  obtain ⟨hframe, hout⟩ := paused_tick_no_advance.2 ⟨7, 2⟩ _ hall
  exact ⟨Or.inl le_rfl, paused_tick_no_advance.1 ⟨7, 2⟩ 0 30 5 (Or.inl le_rfl),
    hframe, hout⟩

/-- C8: a non-paused tick iteration advances the frame counter by
exactly 1 whatever the speed, and emits the current frame formatted at
the base framerate; the speed snapshot influences neither the counter
step nor the emitted string (only the sleep schedule `last_time`). -/
theorem running_tick_advances_one (st : TickState) (speed fps now : ℚ)
    (hspeed : 0 < speed) (hfps : 0 < fps) :
    (tick st speed fps now).1.current_frame = st.current_frame + 1 ∧
    (tick st speed fps now).2 = some (frames_to_tc_string st.current_frame fps) ∧
    ∀ speed2 : ℚ, 0 < speed2 →
      (tick st speed2 fps now).1.current_frame = (tick st speed fps now).1.current_frame ∧
      (tick st speed2 fps now).2 = (tick st speed fps now).2 := by
  rw [tick_running st speed fps now hspeed hfps]
  refine ⟨rfl, rfl, ?_⟩
  intro speed2 h2
  rw [tick_running st speed2 fps now h2 hfps]
  exact ⟨rfl, rfl⟩

/-- Witness for C8 at frame 5, 100% and 50% speed, 30 fps. -/
theorem running_tick_advances_one_witness :
    (0 : ℚ) < 100 ∧ (0 : ℚ) < 30 ∧
    (tick ⟨5, 0⟩ 100 30 0).1.current_frame = (5 : ℤ) + 1 ∧
    (tick ⟨5, 0⟩ 100 30 0).2 = some (frames_to_tc_string 5 30) ∧
    (tick ⟨5, 0⟩ 50 30 0).1.current_frame = (tick ⟨5, 0⟩ 100 30 0).1.current_frame ∧
    (tick ⟨5, 0⟩ 50 30 0).2 = (tick ⟨5, 0⟩ 100 30 0).2 := by
  obtain ⟨h1, h2, h3⟩ :=
    running_tick_advances_one ⟨5, 0⟩ 100 30 0 (by norm_num) (by norm_num)
  obtain ⟨h4, h5⟩ := h3 50 (by norm_num)
  exact ⟨by norm_num, by norm_num, h1, h2, h4, h5⟩

/-- C9: an offset text the parser rejects makes `parse_and_set_offset`
report an error, fall back to `start_frame = 0` and write the corrected
`"00:00:00:00"` back, with no fatal failure; a parsable text becomes the
stored offset, and `reset_timecode` copies it into the frame counter and
leaves the engine stopped. -/
theorem offset_error_handling (st : AppState) :
    (tc_string_to_frames st.offset_var st.fps = none →
      (parse_and_set_offset st).1.start_frame = 0 ∧
      (parse_and_set_offset st).1.offset_var = "00:00:00:00" ∧
      (parse_and_set_offset st).2 = true ∧
      (reset_timecode st).1.current_frame = 0 ∧
      (reset_timecode st).1.is_running = false) ∧
    (∀ parsed : ℤ, tc_string_to_frames st.offset_var st.fps = some parsed →
      (parse_and_set_offset st).1.start_frame = parsed ∧
      (parse_and_set_offset st).2 = false ∧
      (reset_timecode st).1.current_frame = parsed ∧
      (reset_timecode st).1.is_running = false) := by
  constructor
  · intro hnone
    simp [parse_and_set_offset, reset_timecode, hnone]
  · intro parsed hsome
    simp [parse_and_set_offset, reset_timecode, hsome]

/-- Witness for C9 on a bad and a good offset text at 30 fps. -/
theorem offset_error_handling_witness :
    tc_string_to_frames (AppState.offset_var ⟨false, 0, 99, "bad", 30⟩)
      (AppState.fps ⟨false, 0, 99, "bad", 30⟩) = none ∧
    (parse_and_set_offset ⟨false, 0, 99, "bad", 30⟩).1.start_frame = 0 ∧
    (parse_and_set_offset ⟨false, 0, 99, "bad", 30⟩).1.offset_var = "00:00:00:00" ∧
    (parse_and_set_offset ⟨false, 0, 99, "bad", 30⟩).2 = true ∧
    (reset_timecode ⟨false, 0, 99, "bad", 30⟩).1.current_frame = 0 ∧
    (reset_timecode ⟨false, 0, 99, "bad", 30⟩).1.is_running = false ∧
    tc_string_to_frames (AppState.offset_var ⟨true, 0, 99, "00:00:01:15", 30⟩)
      (AppState.fps ⟨true, 0, 99, "00:00:01:15", 30⟩) = some 45 ∧
    (parse_and_set_offset ⟨true, 0, 99, "00:00:01:15", 30⟩).1.start_frame = 45 ∧
    (reset_timecode ⟨true, 0, 99, "00:00:01:15", 30⟩).1.current_frame = 45 ∧
    (reset_timecode ⟨true, 0, 99, "00:00:01:15", 30⟩).1.is_running = false := by
  obtain ⟨e1, e2, e3, e4, e5⟩ :=
    (offset_error_handling ⟨false, 0, 99, "bad", 30⟩).1 (by decide)
  obtain ⟨s1, s2, s3, s4⟩ :=
    (offset_error_handling ⟨true, 0, 99, "00:00:01:15", 30⟩).2 45 (by decide)
  exact ⟨by decide, e1, e2, e3, e4, e5, by decide, s1, s3, s4⟩

/-- C10: for every non-negative frame count and supported framerate, the
formatted output decomposes into fields whose minutes and seconds values
are below 60 and whose frames value is below the display rate, and the
minutes, seconds and frames fields are each exactly two characters —
only the hours field can grow wider. -/
theorem formatter_field_bounds (fr : Framerate) (n : ℕ) :
    frames_to_tc_string (n : ℤ) fr.precise =
      pad2 ((n / fr.displayRate.toNat / 60 / 60 : ℕ) : ℤ) ++ ":" ++
      pad2 ((n / fr.displayRate.toNat / 60 % 60 : ℕ) : ℤ) ++ ":" ++
      pad2 ((n / fr.displayRate.toNat % 60 : ℕ) : ℤ) ++ ":" ++
      pad2 ((n % fr.displayRate.toNat : ℕ) : ℤ) ∧
    n / fr.displayRate.toNat / 60 % 60 < 60 ∧
    n / fr.displayRate.toNat % 60 < 60 ∧
    n % fr.displayRate.toNat < fr.displayRate.toNat ∧
    (pad2 ((n / fr.displayRate.toNat / 60 % 60 : ℕ) : ℤ)).length = 2 ∧
    (pad2 ((n / fr.displayRate.toNat % 60 : ℕ) : ℤ)).length = 2 ∧
    (pad2 ((n % fr.displayRate.toNat : ℕ) : ℤ)).length = 2 := by
  have key : pyRound fr.precise = (fr.displayRate.toNat : ℤ) ∧
      1 ≤ fr.displayRate.toNat ∧ fr.displayRate.toNat ≤ 99 := by
    cases fr <;> exact ⟨by decide, by decide, by decide⟩
  exact formatter_bounds_general fr.precise _ key.1 key.2.1 key.2.2 n
